import Mathlib

/-!
Verification of the layer/shard subsystem of `lm_data_collector`
(`src/helpers.py`): the memory-budgeted layer-window scheduler
`layers_to_load_by_memory` and the shard tensor loader `load_shard_tensor`.

The Python loop

    current_layer = start_layer
    free_memory = max_memory
    next_layer_size = layer_size_cache[current_layer]
    while True:
        current_layer += 1
        if current_layer >= num_layers:
            break
        free_memory -= next_layer_size
        next_layer_size = layer_size_cache[current_layer]
        if free_memory - next_layer_size < 0:
            break
    end_layer = current_layer - 1
    return end_layer

is embedded as a structurally recursive loop over an explicit fuel
`num_layers - start_layer + 1`, which strictly bounds the number of
iterations (the loop exits as soon as `current ≥ num_layers`, and
`current` increases by one per iteration); fuel exhaustion yields `none`
and is proved unreachable for valid inputs.  List accesses are modelled
with `List.getElem?`, so a Python `IndexError` surfaces as `none`.
Layer sizes and the memory budget are integers (Python ints), layer
indices are naturals.
-/

namespace LmDataCollector

/-- One-step-per-fuel embedding of the `while True` loop body of
`layers_to_load_by_memory` (src/helpers.py lines 17-23).  The state is
`(current, free, nextSize)`; the returned value is the final
`current_layer` at the `break`, or `none` on an out-of-range list access
or fuel exhaustion. -/
def schedLoop (sizes : List Int) (numLayers : Nat) (fuel current : Nat)
    (free nextSize : Int) : Option Nat :=
  match fuel with
  | 0 => none
  | fuel' + 1 =>
    if numLayers ≤ current + 1 then some (current + 1)
    else
      let free' := free - nextSize
      match sizes[current + 1]? with
      | none => none
      | some s =>
        if free' - s < 0 then some (current + 1)
        else schedLoop sizes numLayers fuel' (current + 1) free' s

/-- Embedding of `layers_to_load_by_memory` (src/helpers.py lines 8-26):
reads `sizes[start]`, runs the loop, and returns `end_layer = current - 1`. -/
def layers_to_load_by_memory (start_layer : Nat) (max_memory : Int)
    (num_layers : Nat) (layer_size_cache : List Int) : Option Nat :=
  match layer_size_cache[start_layer]? with
  | none => none
  | some s0 =>
    (schedLoop layer_size_cache num_layers (num_layers - start_layer + 1)
        start_layer max_memory s0).map (fun c => c - 1)

/-- Modelled from the spec (§4.4, step 2): the loop of the greedy
forward-packing algorithm exactly as the spec words it — "advance
`current += 1`; if `current >= num_layers`, stop.  Subtract `next_size`
from `free`.  Read `next_size = sizes[current]`.  If
`free - next_size < 0`, stop."  Written as well-founded recursion on
`numLayers - current`; it returns the final `current` at the stop. -/
def specLoop (sizes : List Int) (numLayers : Nat) (current : Nat)
    (free nextSize : Int) : Option Nat :=
  if h : numLayers ≤ current + 1 then some (current + 1)
  else
    let free' := free - nextSize
    match sizes[current + 1]? with
    | none => none
    | some s =>
      if free' - s < 0 then some (current + 1)
      else specLoop sizes numLayers (current + 1) free' s
termination_by numLayers - current
decreasing_by simp_wf; omega

/-- Modelled from the spec (§4.4): `window(start, budget, sizes)` —
step 1 initialises `current = start`, `free = budget`,
`next_size = sizes[start]`; step 2 is `specLoop`; step 3 returns
`current - 1`, one below the loop's final `current`, so the committed
set of layers is `[start, current)`. -/
def specWindow (start : Nat) (budget : Int) (numLayers : Nat)
    (sizes : List Int) : Option Nat :=
  match sizes[start]? with
  | none => none
  | some s0 =>
    (specLoop sizes numLayers start budget s0).map (fun c => c - 1)

/-- Abstract tensor as stored inside a shard file: an opaque payload
identity together with its stored element type. -/
structure RawTensor where
  payload : Nat
  dtype : String
deriving DecidableEq

/-- Abstract in-memory tensor as returned by the loader: payload
identity, the device it lives on, and its element type. -/
structure Tensor where
  payload : Nat
  device : String
  dtype : String
deriving DecidableEq

/-- A shard file's contents: its named tensors (safetensors header view). -/
abbrev Shard := List (String × RawTensor)

/-- Read-only view of the weight directory: file name to shard contents. -/
abbrev FileSystem := List (String × Shard)

/-- Embedding of `os.path.join(model_dir, file)` as used in
src/helpers.py line 38. -/
def os_path_join (a b : String) : String := a ++ "/" ++ b

/-- Embedding of `load_shard_tensor` (src/helpers.py lines 28-39).
Returns the `Except` result of the call together with the list of shard
files the call opens (`safe_open` attempts), in order.  The membership
test on `layer_file_cache` happens before any file access, mirroring
`if layer_name not in layer_file_cache: raise ValueError(...)`; on the
error path the open list is empty.  The index `layer_file_cache` and the
file system are taken read-only: the Python body performs only a
membership test, a dict read, and a read-only `safe_open`, so the
embedding is a pure function of them.  `safe_open(..., device=device)`
places the extracted tensor on `device`, and `.to(dtype)` converts its
element type. -/
def load_shard_tensor (fs : FileSystem) (layer_file_cache : List (String × String))
    (model_dir layer_name device dtype : String) :
    Except String Tensor × List String :=
  match layer_file_cache.lookup layer_name with
  | none => (Except.error ("Could not find layer file for layer " ++ layer_name), [])
  | some file =>
    let path := os_path_join model_dir file
    match fs.lookup path with
    | none => (Except.error ("No such file or directory: " ++ path), [path])
    | some shard =>
      match shard.lookup layer_name with
      | none => (Except.error ("tensor " ++ layer_name ++ " not found"), [path])
      | some raw => (Except.ok ⟨raw.payload, device, dtype⟩, [path])

/-- One-step unfolding of the loop when fuel remains. -/
theorem schedLoop_succ (sizes : List Int) (numLayers fuel current : Nat)
    (free nextSize : Int) :
    schedLoop sizes numLayers (fuel + 1) current free nextSize =
      if numLayers ≤ current + 1 then some (current + 1)
      else
        match sizes[current + 1]? with
        | none => none
        | some s =>
          if free - nextSize - s < 0 then some (current + 1)
          else schedLoop sizes numLayers fuel (current + 1) (free - nextSize) s := rfl

/-- The loop's result strictly exceeds the `current` it started from, and
stays at most `numLayers` whenever `current < numLayers`. -/
theorem schedLoop_bounds (sizes : List Int) (numLayers : Nat) :
    ∀ fuel current free nextSize r, current < numLayers →
      schedLoop sizes numLayers fuel current free nextSize = some r →
      current + 1 ≤ r ∧ r ≤ numLayers := by
  intro fuel
  induction fuel with
  | zero =>
    intro c f ns r _ h
    simp [schedLoop] at h
  | succ fuel ih =>
    intro c f ns r hc h
    rw [schedLoop_succ] at h
    by_cases hge : numLayers ≤ c + 1
    · rw [if_pos hge] at h
      simp only [Option.some.injEq] at h
      omega
    · rw [if_neg hge] at h
      cases hx : sizes[c + 1]? with
      | none => rw [hx] at h; simp at h
      | some s =>
        rw [hx] at h
        simp only at h
        by_cases hb : f - ns - s < 0
        · rw [if_pos hb] at h
          simp only [Option.some.injEq] at h
          omega
        · rw [if_neg hb] at h
          have := ih (c + 1) (f - ns) s r (by omega) h
          omega

/-- The loop never runs out of fuel nor indexes out of range when the
size table covers `numLayers` and the fuel bounds the remaining layers. -/
theorem schedLoop_isSome (sizes : List Int) (numLayers : Nat)
    (hlen : numLayers ≤ sizes.length) :
    ∀ fuel current free nextSize, 1 ≤ fuel → numLayers ≤ current + fuel →
      (schedLoop sizes numLayers fuel current free nextSize).isSome := by
  intro fuel
  induction fuel with
  | zero => intro c f ns h1 _; omega
  | succ fuel ih =>
    intro c f ns _ hcf
    rw [schedLoop_succ]
    by_cases hge : numLayers ≤ c + 1
    · rw [if_pos hge]; rfl
    · rw [if_neg hge]
      have hidx : c + 1 < sizes.length := by omega
      rw [List.getElem?_eq_getElem hidx]
      simp only
      by_cases hb : f - ns - sizes[c + 1] < 0
      · rw [if_pos hb]; rfl
      · rw [if_neg hb]
        exact ih (c + 1) (f - ns) (sizes[c + 1]) (by omega) (by omega)

/-- Monotonicity of the loop in the free-memory component of the state. -/
theorem schedLoop_mono (sizes : List Int) (numLayers : Nat) :
    ∀ fuel current free₁ free₂ nextSize r₁ r₂, free₁ ≤ free₂ → current < numLayers →
      schedLoop sizes numLayers fuel current free₁ nextSize = some r₁ →
      schedLoop sizes numLayers fuel current free₂ nextSize = some r₂ →
      r₁ ≤ r₂ := by
  intro fuel
  induction fuel with
  | zero =>
    intro c f₁ f₂ ns r₁ r₂ _ _ h₁ _
    simp [schedLoop] at h₁
  | succ fuel ih =>
    intro c f₁ f₂ ns r₁ r₂ hf hc h₁ h₂
    rw [schedLoop_succ] at h₁ h₂
    by_cases hge : numLayers ≤ c + 1
    · rw [if_pos hge] at h₁ h₂
      simp only [Option.some.injEq] at h₁ h₂
      omega
    · rw [if_neg hge] at h₁ h₂
      cases hx : sizes[c + 1]? with
      | none => rw [hx] at h₁; simp at h₁
      | some s =>
        rw [hx] at h₁ h₂
        simp only at h₁ h₂
        by_cases hb₂ : f₂ - ns - s < 0
        · rw [if_pos (by omega : f₁ - ns - s < 0)] at h₁
          rw [if_pos hb₂] at h₂
          simp only [Option.some.injEq] at h₁ h₂
          omega
        · rw [if_neg hb₂] at h₂
          by_cases hb₁ : f₁ - ns - s < 0
          · rw [if_pos hb₁] at h₁
            simp only [Option.some.injEq] at h₁
            have := schedLoop_bounds sizes numLayers fuel (c + 1) (f₂ - ns) s r₂
              (by omega) h₂
            omega
          · rw [if_neg hb₁] at h₁
            exact ih (c + 1) (f₁ - ns) (f₂ - ns) s r₁ r₂ (by omega) (by omega) h₁ h₂

/-- With enough fuel, the fuel-indexed loop coincides with the loop as the
spec words it. -/
theorem schedLoop_eq_specLoop (sizes : List Int) (numLayers : Nat) :
    ∀ fuel current free nextSize, 1 ≤ fuel → numLayers ≤ current + fuel →
      schedLoop sizes numLayers fuel current free nextSize =
        specLoop sizes numLayers current free nextSize := by
  intro fuel
  induction fuel with
  | zero => intro c f ns h1 _; omega
  | succ fuel ih =>
    intro c f ns _ hcf
    rw [schedLoop_succ, specLoop]
    by_cases hge : numLayers ≤ c + 1
    · rw [if_pos hge, dif_pos hge]
    · rw [if_neg hge, dif_neg hge]
      simp only
      cases hx : sizes[c + 1]? with
      | none => rfl
      | some s =>
        simp only
        by_cases hb : f - ns - s < 0
        · rw [if_pos hb, if_pos hb]
        · rw [if_neg hb, if_neg hb]
          exact ih (c + 1) (f - ns) s (by omega) (by omega)

/-- Unfolding of `layers_to_load_by_memory` when the start index is in
range. -/
theorem layers_eq (start_layer : Nat) (max_memory : Int) (num_layers : Nat)
    (layer_size_cache : List Int) (s0 : Int)
    (h : layer_size_cache[start_layer]? = some s0) :
    layers_to_load_by_memory start_layer max_memory num_layers layer_size_cache =
      (schedLoop layer_size_cache num_layers (num_layers - start_layer + 1)
          start_layer max_memory s0).map (fun c => c - 1) := by
  unfold layers_to_load_by_memory
  rw [h]

/-- Unfolding of `layers_to_load_by_memory` when the start index is out of
range. -/
theorem layers_eq_none (start_layer : Nat) (max_memory : Int) (num_layers : Nat)
    (layer_size_cache : List Int)
    (h : layer_size_cache[start_layer]? = none) :
    layers_to_load_by_memory start_layer max_memory num_layers layer_size_cache = none := by
  unfold layers_to_load_by_memory
  rw [h]

/-- Unfolding of `specWindow` when the start index is in range. -/
theorem specWindow_eq (start : Nat) (budget : Int) (numLayers : Nat)
    (sizes : List Int) (s0 : Int) (h : sizes[start]? = some s0) :
    specWindow start budget numLayers sizes =
      (specLoop sizes numLayers start budget s0).map (fun c => c - 1) := by
  unfold specWindow
  rw [h]

/-- Unfolding of `specWindow` when the start index is out of range. -/
theorem specWindow_eq_none (start : Nat) (budget : Int) (numLayers : Nat)
    (sizes : List Int) (h : sizes[start]? = none) :
    specWindow start budget numLayers sizes = none := by
  unfold specWindow
  rw [h]

/-- On valid inputs the scheduler succeeds and its result lies strictly
above `start - 1` and strictly below `num_layers`. -/
theorem layers_some (start : Nat) (budget : Int) (numLayers : Nat)
    (sizes : List Int) (hs : start < numLayers) (hlen : numLayers ≤ sizes.length) :
    ∃ r, layers_to_load_by_memory start budget numLayers sizes = some r ∧
      start ≤ r ∧ r + 1 ≤ numLayers := by
  have hsl : start < sizes.length := by omega
  have hsome := schedLoop_isSome sizes numLayers hlen (numLayers - start + 1)
    start budget (sizes[start]) (by omega) (by omega)
  obtain ⟨c, hc⟩ := Option.isSome_iff_exists.mp hsome
  have hbounds := schedLoop_bounds sizes numLayers (numLayers - start + 1)
    start budget (sizes[start]) c hs hc
  refine ⟨c - 1, ?_, by omega, by omega⟩
  rw [layers_eq start budget numLayers sizes (sizes[start])
    (List.getElem?_eq_getElem hsl), hc]
  rfl

/-- On valid inputs, a larger budget yields a scheduler result at least as
large. -/
theorem layers_mono_aux (start : Nat) (B₁ B₂ : Int) (numLayers : Nat)
    (sizes : List Int) (hs : start < numLayers) (hlen : numLayers ≤ sizes.length)
    (hB : B₁ ≤ B₂) :
    ∃ r₁ r₂, layers_to_load_by_memory start B₁ numLayers sizes = some r₁ ∧
      layers_to_load_by_memory start B₂ numLayers sizes = some r₂ ∧ r₁ ≤ r₂ := by
  have hsl : start < sizes.length := by omega
  obtain ⟨c₁, hc₁⟩ := Option.isSome_iff_exists.mp
    (schedLoop_isSome sizes numLayers hlen (numLayers - start + 1)
      start B₁ (sizes[start]) (by omega) (by omega))
  obtain ⟨c₂, hc₂⟩ := Option.isSome_iff_exists.mp
    (schedLoop_isSome sizes numLayers hlen (numLayers - start + 1)
      start B₂ (sizes[start]) (by omega) (by omega))
  have hmono := schedLoop_mono sizes numLayers (numLayers - start + 1)
    start B₁ B₂ (sizes[start]) c₁ c₂ hB hs hc₁ hc₂
  refine ⟨c₁ - 1, c₂ - 1, ?_, ?_, by omega⟩
  · rw [layers_eq start B₁ numLayers sizes (sizes[start])
      (List.getElem?_eq_getElem hsl), hc₁]
    rfl
  · rw [layers_eq start B₂ numLayers sizes (sizes[start])
      (List.getElem?_eq_getElem hsl), hc₂]
    rfl

/-- C1: the layer-window scheduler `layers_to_load_by_memory` implements
exactly the greedy forward-packing loop of spec §4.4 (`specWindow`,
transcribed from the spec's numbered steps): initialise
`current = start`, `free = budget`, `next_size = sizes[start]`; repeat
(advance `current += 1`; stop if `current >= num_layers`; subtract
`next_size` from `free`; read `next_size = sizes[current]`; stop if
`free - next_size < 0`); return `current - 1`, so the committed window is
`[start, current)`.  The two functions agree on every input. -/
theorem scheduler_implements_spec_loop (start : Nat) (budget : Int)
    (numLayers : Nat) (sizes : List Int) :
    layers_to_load_by_memory start budget numLayers sizes =
      specWindow start budget numLayers sizes := by
  cases hx : sizes[start]? with
  | none =>
    rw [layers_eq_none start budget numLayers sizes hx,
      specWindow_eq_none start budget numLayers sizes hx]
  | some s0 =>
    rw [layers_eq start budget numLayers sizes s0 hx,
      specWindow_eq start budget numLayers sizes s0 hx,
      schedLoop_eq_specLoop sizes numLayers (numLayers - start + 1) start budget s0
        (by omega) (by omega)]

/-- C2: for a 16-layer model of uniform layer size 100 and
`start = 0, budget = 250`, the scheduler returns layer index 1, i.e. the
half-open window `[0, 1 + 1) = [0, 2)` containing exactly layers 0 and 1
and no third layer. -/
theorem scenario_A_two_layer_window :
    layers_to_load_by_memory 0 250 16 (List.replicate 16 100) = some 1 ∧
      ∀ i : Nat, i ∈ Finset.Ico 0 (1 + 1) ↔ i = 0 ∨ i = 1 := by
  refine ⟨by decide, ?_⟩
  intro i
  rw [Finset.mem_Ico]
  omega

/-- C3 counterexample: with `start = 0`, `budget = 50` and uniform layer
size 100 (so `budget < sizes[start]`), the scheduler returns layer 0 and
the resulting window `[0, 0 + 1)` is nonempty — not zero-or-negative
length as the claim states. -/
theorem budget_too_small_window_cex :
    (50 : Int) < 100 ∧
      layers_to_load_by_memory 0 50 3 [100, 100, 100] = some 0 ∧
      Finset.Ico 0 (0 + 1) ≠ (∅ : Finset Nat) := by decide

/-- C3 amended: when `budget < sizes[start]` (with `start` a valid layer
index and strictly positive layer sizes) the scheduler does not
special-case the condition: it returns `start`, i.e. the one-layer window
`[start, start + 1)`.  Layer `start` is admitted even though it exceeds
the budget, so the caller cannot detect budget-too-small from the result
and must pre-check `budget >= sizes[start]`. -/
theorem budget_too_small_not_detectable (start : Nat) (budget : Int)
    (numLayers : Nat) (sizes : List Int) (hs : start < numLayers)
    (hlen : numLayers ≤ sizes.length) (hpos : ∀ x ∈ sizes, 0 < x)
    (hB : budget < sizes.get ⟨start, by omega⟩) :
    layers_to_load_by_memory start budget numLayers sizes = some start := by
  have hsl : start < sizes.length := by omega
  rw [layers_eq start budget numLayers sizes (sizes[start])
    (List.getElem?_eq_getElem hsl)]
  rw [schedLoop_succ]
  by_cases hge : numLayers ≤ start + 1
  · rw [if_pos hge]
    simp
  · rw [if_neg hge]
    have hidx : start + 1 < sizes.length := by omega
    rw [List.getElem?_eq_getElem hidx]
    simp only
    have h1 : (0 : Int) < sizes[start + 1] := hpos _ (List.getElem_mem hidx)
    have h0 : budget < sizes[start] := by
      simpa [List.get_eq_getElem] using hB
    rw [if_pos (by omega : budget - sizes[start] - sizes[start + 1] < 0)]
    simp

/-- C4: for fixed sizes, layer count and start, the scheduler result is
monotonically non-decreasing in the budget, and the corresponding window
for the smaller budget is contained in the window for the larger one. -/
theorem window_monotone_in_budget (start : Nat) (B₁ B₂ : Int) (numLayers : Nat)
    (sizes : List Int) (hs : start < numLayers) (hlen : numLayers ≤ sizes.length)
    (hB : B₁ ≤ B₂) :
    ∃ r₁ r₂, layers_to_load_by_memory start B₁ numLayers sizes = some r₁ ∧
      layers_to_load_by_memory start B₂ numLayers sizes = some r₂ ∧
      r₁ ≤ r₂ ∧ Finset.Ico start (r₁ + 1) ⊆ Finset.Ico start (r₂ + 1) := by
  obtain ⟨r₁, r₂, h₁, h₂, hr⟩ :=
    layers_mono_aux start B₁ B₂ numLayers sizes hs hlen hB
  exact ⟨r₁, r₂, h₁, h₂, hr, Finset.Ico_subset_Ico le_rfl (by omega)⟩

/-- C5: when the budget admits at least one full layer beyond `start`
(`sizes[start] ≤ budget`, `start < num_layers`), the produced window
`[start, r + 1)` satisfies `start < r + 1 ≤ num_layers`. -/
theorem window_nonempty_when_budget_admits (start : Nat) (budget : Int)
    (numLayers : Nat) (sizes : List Int) (hs : start < numLayers)
    (hlen : numLayers ≤ sizes.length)
    (hB : sizes.get ⟨start, by omega⟩ ≤ budget) :
    ∃ r, layers_to_load_by_memory start budget numLayers sizes = some r ∧
      start < r + 1 ∧ r + 1 ≤ numLayers := by
  obtain ⟨r, hr, h1, h2⟩ := layers_some start budget numLayers sizes hs hlen
  exact ⟨r, hr, by omega, h2⟩

/-- C6: for a tensor name absent from the layer-file index,
`load_shard_tensor` fails with the could-not-find-layer-file `ValueError`
and its list of opened files is empty — the membership check precedes any
file access, and the embedding takes the index and file system read-only. -/
theorem unknown_tensor_errors_without_open (fs : FileSystem)
    (layer_file_cache : List (String × String))
    (model_dir layer_name device dtype : String)
    (h : layer_file_cache.lookup layer_name = none) :
    load_shard_tensor fs layer_file_cache model_dir layer_name device dtype =
      (Except.error ("Could not find layer file for layer " ++ layer_name), []) := by
  unfold load_shard_tensor
  rw [h]

/-- C7: for a tensor name present in the index and resolvable on disk,
`load_shard_tensor` opens exactly the one shard file the index maps the
name to (the opened-file list is that singleton), extracts the named
tensor, and returns it with the requested dtype on the requested device. -/
theorem known_tensor_single_file_open (fs : FileSystem)
    (layer_file_cache : List (String × String))
    (model_dir layer_name device dtype file : String) (shard : Shard)
    (raw : RawTensor)
    (hc : layer_file_cache.lookup layer_name = some file)
    (hf : fs.lookup (os_path_join model_dir file) = some shard)
    (ht : shard.lookup layer_name = some raw) :
    load_shard_tensor fs layer_file_cache model_dir layer_name device dtype =
      (Except.ok ⟨raw.payload, device, dtype⟩, [os_path_join model_dir file]) := by
  simp only [load_shard_tensor, hc, hf, ht]

/-- C8: for every valid start layer and every budget (zero and negative
included), the scheduler returns some value `r` with
`start ≤ r ≤ num_layers - 1`. -/
theorem result_within_layer_range (start : Nat) (budget : Int) (numLayers : Nat)
    (sizes : List Int) (hs : start < numLayers) (hlen : numLayers ≤ sizes.length) :
    ∃ r, layers_to_load_by_memory start budget numLayers sizes = some r ∧
      start ≤ r ∧ r ≤ numLayers - 1 := by
  obtain ⟨r, hr, h1, h2⟩ := layers_some start budget numLayers sizes hs hlen
  exact ⟨r, hr, h1, by omega⟩

/-- C9: when `start = num_layers - 1`, the loop exits on its first
`current >= num_layers` check before subtracting any size, so the
scheduler returns `start` for every budget — the last layer is always
admitted regardless of whether it fits. -/
theorem last_layer_start_ignores_budget (budget : Int) (numLayers : Nat)
    (sizes : List Int) (h1 : 1 ≤ numLayers) (hlen : numLayers ≤ sizes.length) :
    layers_to_load_by_memory (numLayers - 1) budget numLayers sizes =
      some (numLayers - 1) := by
  have hsl : numLayers - 1 < sizes.length := by omega
  rw [layers_eq (numLayers - 1) budget numLayers sizes (sizes[numLayers - 1])
    (List.getElem?_eq_getElem hsl)]
  have hf : numLayers - (numLayers - 1) + 1 = 1 + 1 := by omega
  rw [hf, schedLoop_succ, if_pos (by omega : numLayers ≤ numLayers - 1 + 1)]
  simp

/-- C10: under the precondition `start < num_layers ≤ sizes.length` the
scheduler is total: it returns `some` result, which in this embedding
means every `sizes[current]` access was in range and the fuel — a strict
bound on the loop's iterations, each of which increases `current` by
one — was never exhausted. -/
theorem scheduler_total_on_valid_inputs (start : Nat) (budget : Int)
    (numLayers : Nat) (sizes : List Int) (hs : start < numLayers)
    (hlen : numLayers ≤ sizes.length) :
    (layers_to_load_by_memory start budget numLayers sizes).isSome := by
  obtain ⟨r, hr, _, _⟩ := layers_some start budget numLayers sizes hs hlen
  rw [hr]
  rfl

/-- Witness for C3's amended theorem at start 0, budget 50, three layers
of size 100. -/
theorem budget_too_small_not_detectable_witness :
    layers_to_load_by_memory 0 50 3 [100, 100, 100] = some 0 :=
  budget_too_small_not_detectable 0 50 3 [100, 100, 100] (by decide) (by decide)
    (by decide) (by decide)

/-- Witness for C4 at start 0, budgets 100 and 250, sixteen layers of
size 100. -/
theorem window_monotone_in_budget_witness :
    ∃ r₁ r₂, layers_to_load_by_memory 0 100 16 (List.replicate 16 100) = some r₁ ∧
      layers_to_load_by_memory 0 250 16 (List.replicate 16 100) = some r₂ ∧
      r₁ ≤ r₂ ∧ Finset.Ico 0 (r₁ + 1) ⊆ Finset.Ico 0 (r₂ + 1) :=
  window_monotone_in_budget 0 100 250 16 (List.replicate 16 100) (by decide)
    (by decide) (by decide)

/-- Witness for C5 at start 0, budget 100, two layers of size 50. -/
theorem window_nonempty_when_budget_admits_witness :
    ∃ r, layers_to_load_by_memory 0 100 2 [50, 50] = some r ∧
      0 < r + 1 ∧ r + 1 ≤ 2 :=
  window_nonempty_when_budget_admits 0 100 2 [50, 50] (by decide) (by decide)
    (by decide)

/-- Witness for C6 on an empty index. -/
theorem unknown_tensor_errors_without_open_witness :
    load_shard_tensor [] [] "models" "bad_layer" "cpu" "float16" =
      (Except.error ("Could not find layer file for layer " ++ "bad_layer"), []) :=
  unknown_tensor_errors_without_open [] [] "models" "bad_layer" "cpu" "float16" rfl

/-- Witness for C7 on a one-file, one-tensor weight directory. -/
theorem known_tensor_single_file_open_witness :
    load_shard_tensor [("m/f1", [("w0", ⟨7, "bfloat16"⟩)])] [("w0", "f1")]
      "m" "w0" "cpu" "float16" =
      (Except.ok ⟨7, "cpu", "float16"⟩, [os_path_join "m" "f1"]) :=
  known_tensor_single_file_open [("m/f1", [("w0", ⟨7, "bfloat16"⟩)])] [("w0", "f1")]
    "m" "w0" "cpu" "float16" "f1" [("w0", ⟨7, "bfloat16"⟩)] ⟨7, "bfloat16"⟩
    rfl rfl rfl

/-- Witness for C8 at start 0 with a negative budget. -/
theorem result_within_layer_range_witness :
    ∃ r, layers_to_load_by_memory 0 (-5) 2 [10, 10] = some r ∧
      0 ≤ r ∧ r ≤ 2 - 1 :=
  result_within_layer_range 0 (-5) 2 [10, 10] (by decide) (by decide)

/-- Witness for C9 with five layers and budget 0. -/
theorem last_layer_start_ignores_budget_witness :
    layers_to_load_by_memory (5 - 1) 0 5 (List.replicate 5 7) = some (5 - 1) :=
  last_layer_start_ignores_budget 0 5 (List.replicate 5 7) (by decide) (by decide)

/-- Witness for C10 at start 1, budget 0, three layers of size 5. -/
theorem scheduler_total_on_valid_inputs_witness :
    (layers_to_load_by_memory 1 0 3 [5, 5, 5]).isSome :=
  scheduler_total_on_valid_inputs 1 0 3 [5, 5, 5] (by decide) (by decide)

end LmDataCollector
